import Mathlib

/-!
Shallow embedding of the rate acquisition, aggregation and caching engine of
`valutatrade_hub` (parser_service/storage.py, parser_service/updater.py,
parser_service/api_clients.py, parser_service/scheduler.py, core/usecases.py,
core/currencies.py).

Modelling conventions:
- Python `float` rates are modelled as `Rat` (the claims under study are about
  comparisons, reciprocals and data flow, not binary rounding).
- Timestamps are `Int` seconds since the epoch; `datetime.now()` becomes an
  explicit parameter `t`/`now`.
- Python dicts whose keys are pair strings are association lists
  `List (String × _)`; dict assignment `d[k] = v` is `dinsert` (overwrite when
  the key is present, append otherwise), matching insertion-order semantics.
- File-system state is explicit: a snapshot file is `missing`, `corrupt`
  (present but not JSON-decodable text), `unreadable` (present but an OS error
  occurs on open/read, e.g. a permission error) or `valid`.  The historical
  ledger file is modelled the same way.
- Raising is `Except PyErr`; each Python exception class used by the engine is
  one `PyErr` constructor.
-/

namespace ValutaTrade

-- Equality of raise-or-return outcomes is decidable (used to evaluate the
-- embedded operations on concrete inputs).
deriving instance DecidableEq for Except

/-- Error taxonomy of the engine: `osError` is an uncaught OS-level error
(e.g. `PermissionError`), `runtime` is `RuntimeError` (persistence failure),
`apiRequest` is `ApiRequestError`, `currencyNotFound` is
`CurrencyNotFoundError` (core/exceptions.py). -/
inductive PyErr
  | osError
  | runtime (msg : String)
  | apiRequest (msg : String)
  | currencyNotFound (code : String)
deriving DecidableEq, Repr

/-- Python `str.upper` restricted to ASCII, the alphabet of currency codes;
`Char.toUpper` is exactly the ASCII transformation the CPython fast path
applies to each character. -/
def pyUpper (s : String) : String := ⟨s.data.map Char.toUpper⟩

/-- Metadata dict attached by a client under the `"_meta"` key and consumed by
the storage layer via `source_meta.get(...)` chains; absent keys are `none`
(matching `dict.get` returning `None`/defaults). -/
structure SourceMeta where
  source : Option String := none
  raw_id : Option String := none
  request_ms : Option Int := none
  status_code : Option Int := none
  etag : Option String := none
  base_currency : Option String := none
deriving DecidableEq, Repr

/-- Result dict of a `fetch_rates` call: the pair-keyed numeric entries plus
the optional `"_meta"` entry (both clients always attach one; pair keys never
equal `"_meta"`).  `size` is `len` of the underlying Python dict. -/
structure RatesDict where
  pairs : List (String × Rat)
  meta : Option SourceMeta
deriving DecidableEq, Repr

/-- Python `len(rates)` for a fetched dict, counting the `"_meta"` entry. -/
def RatesDict.size (d : RatesDict) : Nat :=
  d.pairs.length + (if d.meta.isSome then 1 else 0)

/-- One entry of the persisted snapshot (storage.py, `save_current_rates`). -/
structure RateEntry where
  rate : Rat
  updated_at : Int
  source : String
deriving DecidableEq, Repr

/-- Parsed content of the snapshot file `rates.json`.  The cold-start default
returned by `get_current_rates` has no `source` key, hence `Option String`. -/
structure SnapData where
  pairs : List (String × RateEntry)
  last_refresh : Option Int
  source : Option String
deriving DecidableEq, Repr

/-- Empty snapshot `{"pairs": {}, "last_refresh": None}` returned on a missing
or corrupt snapshot file. -/
def emptySnapshot : SnapData :=
  { pairs := [], last_refresh := none, source := none }

/-- State of the snapshot file on disk. -/
inductive SnapFile
  | missing
  | corrupt
  | unreadable
  | valid (s : SnapData)
deriving DecidableEq, Repr

/-- Embeds `RatesStorage.get_current_rates` (storage.py lines 138-146):
`os.path.exists` fails on a missing file and `json.load` raises
`JSONDecodeError` on corrupt text, both caught, returning the empty snapshot;
an existing file whose open/read raises an OS error (e.g. `PermissionError`)
is not caught by `except (json.JSONDecodeError, FileNotFoundError)` and the
error propagates. -/
def get_current_rates : SnapFile → Except PyErr SnapData
  | .missing => .ok emptySnapshot
  | .corrupt => .ok emptySnapshot
  | .unreadable => .error .osError
  | .valid s => .ok s

/-- Meta block of a historical record (storage.py `save_historical_record`). -/
structure RecordMeta where
  raw_id : String := ""
  request_ms : Int := 0
  status_code : Int := 0
  etag : String := ""
  base_currency : String := ""
deriving DecidableEq, Repr

/-- One record of the historical ledger `exchange_rates.json`. -/
structure HistRecord where
  id : String
  from_currency : String
  to_currency : String
  rate : Rat
  timestamp : Int
  source : String
  meta : RecordMeta := {}
deriving DecidableEq, Repr

/-- State of the historical-ledger file on disk. -/
inductive HistFile
  | missing
  | corrupt
  | unreadable
  | valid (l : List HistRecord)
deriving DecidableEq, Repr

/-- Embeds `RatesStorage._load_historical_data` (storage.py lines 97-105):
missing file or corrupt JSON yields `[]`; an OS-level read error propagates to
the caller (same `except` clause as `get_current_rates`). -/
def load_historical_data : HistFile → Except PyErr (List HistRecord)
  | .missing => .ok []
  | .corrupt => .ok []
  | .unreadable => .error .osError
  | .valid l => .ok l

/-- Failure-injection point for the temp-file write discipline used by
`save_current_rates` and `_save_historical_data`: no failure, `mkstemp`
fails (no temp file is ever created), the write to the temp file fails, or
the atomic `os.replace` fails (the target is untouched either way). -/
inductive WriteFail
  | noFail
  | mkstempFail
  | writeFail
  | replaceFail
deriving DecidableEq, Repr

/-- On-disk state owned by `RatesStorage`: the snapshot file, the ledger file,
and whether a temp artifact from the respective save operation currently
exists. -/
structure FileSys where
  rates_file : SnapFile
  history_file : HistFile
  rates_temp : Bool
  history_temp : Bool
deriving DecidableEq, Repr

/-- Python `k.startswith("_")`: the first character is an underscore. -/
def startswithUnderscore (s : String) : Bool :=
  match s.data with
  | [] => false
  | c :: _ => c == '_'

/-- Embeds the comprehension
`{k: v for k, v in rates.items() if not k.startswith("_")}`. -/
def cleanRates (rates : List (String × Rat)) : List (String × Rat) :=
  rates.filter (fun kv => !(startswithUnderscore kv.1))

/-- Snapshot object built by `save_current_rates` before it is written:
one `RateEntry` per clean pair, all stamped with the same timestamp and the
meta source (default `"Unknown"`). -/
def snapshotOf (rates : List (String × Rat)) (m : SourceMeta) (t : Int) :
    SnapData :=
  { pairs := (cleanRates rates).map (fun kv =>
      (kv.1, { rate := kv.2, updated_at := t, source := m.source.getD "Unknown" }))
  , last_refresh := some t
  , source := some (m.source.getD "Unknown") }

/-- Embeds `RatesStorage.save_current_rates` (storage.py lines 13-56): empty
input returns immediately without touching the disk; otherwise the snapshot
object is written to a fresh temp file and atomically renamed over
`rates.json`.  On `mkstemp` failure nothing was created; on a failure during
the temp write or the rename the temp file is unlinked; in every failure case
a `RuntimeError` is raised and the previous snapshot file is untouched. -/
def save_current_rates (rates : List (String × Rat)) (m : SourceMeta) (t : Int)
    (wf : WriteFail) (fs : FileSys) : Except PyErr Unit × FileSys :=
  if rates.isEmpty then (.ok (), fs)
  else
    match wf with
    | .noFail =>
        (.ok (), { fs with rates_file := .valid (snapshotOf rates m t)
                         , rates_temp := false })
    | .mkstempFail => (.error (.runtime "Oshibka sohranenija rates.json"), fs)
    | .writeFail =>
        (.error (.runtime "Oshibka sohranenija rates.json"),
         { fs with rates_temp := false })
    | .replaceFail =>
        (.error (.runtime "Oshibka sohranenija rates.json"),
         { fs with rates_temp := false })

/-- Embeds `RatesStorage._generate_record_id` up to the digest: the id is
derived from the pair and the second-granularity timestamp only.  The md5
hex truncation applied to this base string is not modelled; no claim under
study depends on the digest function itself. -/
def generate_record_id (pair : String) (t : Int) : String :=
  pair ++ "_" ++ toString t

/-- Record built by `save_historical_record` for one clean pair.  The pair key
always has the `FROM_TO` shape when produced by the clients, so
`pair.split("_")[0]` and `[1]` are total here (modelled with a default). -/
def mkHistRecord (pair : String) (rate : Rat) (t : Int) (m : SourceMeta) :
    HistRecord :=
  { id := generate_record_id pair t
  , from_currency := (pair.splitOn "_").getD 0 ""
  , to_currency := (pair.splitOn "_").getD 1 ""
  , rate := rate
  , timestamp := t
  , source := m.source.getD "Unknown"
  , meta :=
    { raw_id := m.raw_id.getD ""
    , request_ms := m.request_ms.getD 0
    , status_code := m.status_code.getD 0
    , etag := m.etag.getD ""
    , base_currency := m.base_currency.getD "" } }

/-- Embeds `RatesStorage.save_historical_record` (storage.py lines 58-95):
loads the full ledger (propagating an OS read error), appends one record per
clean pair, and rewrites the ledger with the temp-then-rename discipline of
`_save_historical_data` (storage.py lines 107-131). -/
def save_historical_record (rates : List (String × Rat)) (m : SourceMeta)
    (t : Int) (wf : WriteFail) (fs : FileSys) : Except PyErr Unit × FileSys :=
  if rates.isEmpty then (.ok (), fs)
  else
    match load_historical_data fs.history_file with
    | .error e => (.error e, fs)
    | .ok hist =>
      let data := hist ++ (cleanRates rates).map (fun kv => mkHistRecord kv.1 kv.2 t m)
      match wf with
      | .noFail =>
          (.ok (), { fs with history_file := .valid data, history_temp := false })
      | .mkstempFail => (.error (.runtime "Oshibka sohranenija istorii"), fs)
      | .writeFail =>
          (.error (.runtime "Oshibka sohranenija istorii"),
           { fs with history_temp := false })
      | .replaceFail =>
          (.error (.runtime "Oshibka sohranenija istorii"),
           { fs with history_temp := false })

/-- Embeds `RatesStorage.cleanup_old_records` (storage.py lines 148-168).
Returns the Python return value (or the raised error), the resulting
file-system state, and whether the ledger file was rewritten.  The cutoff is
`now - max_age_days * 24 * 60 * 60`; records with `timestamp > cutoff` are
kept; the ledger is rewritten only when the filtered list is shorter. -/
def cleanup_old_records (now : Int) (max_age_days : Int) (wf : WriteFail)
    (fs : FileSys) : Except PyErr Nat × FileSys × Bool :=
  match load_historical_data fs.history_file with
  | .error _ => (.error (.runtime "Oshibka ochistki istoricheskih dannyh"), fs, false)
  | .ok data =>
    if data.isEmpty then (.ok 0, fs, false)
    else
      let cutoff := now - max_age_days * 24 * 60 * 60
      let filtered := data.filter (fun record => cutoff < record.timestamp)
      if filtered.length < data.length then
        match wf with
        | .noFail =>
            (.ok (data.length - filtered.length),
             { fs with history_file := .valid filtered, history_temp := false },
             true)
        | .mkstempFail =>
            (.error (.runtime "Oshibka ochistki istoricheskih dannyh"), fs, false)
        | .writeFail =>
            (.error (.runtime "Oshibka ochistki istoricheskih dannyh"),
             { fs with history_temp := false }, false)
        | .replaceFail =>
            (.error (.runtime "Oshibka ochistki istoricheskih dannyh"),
             { fs with history_temp := false }, false)
      else (.ok 0, fs, false)

/-- Outcome of one `client.fetch_rates()` call inside `run_update`: the call
raised, or returned a dict. -/
inductive FetchOutcome
  | raiseErr (msg : String)
  | ok (d : RatesDict)
deriving DecidableEq, Repr

/-- Aggregate result of `RatesUpdater.run_update` (updater.py lines 30-36);
the wall-clock fields `start_time`, `end_time` and `duration_seconds` are
metadata not modelled. -/
structure UpdateResult where
  successful_sources : List String
  failed_sources : List String
  total_rates : Nat
deriving DecidableEq, Repr

/-- A source fails (for the run) when its fetch raised or when the dict it
returned does not satisfy `rates and len(rates) > 1` (updater.py line 52). -/
def failingOutcome : FetchOutcome → Prop
  | .raiseErr _ => True
  | .ok d => d.size ≤ 1

/-- One iteration of the source loop of `RatesUpdater.run_update` (updater.py
lines 38-77): unknown sources are skipped; a raising fetch marks the source
failed; a usable dict (`len > 1`) has its `"_meta"` popped, is written through
to the snapshot and the ledger (an exception from either save is caught by the
same `except` and marks the source failed), and on success the source is
recorded with its pair count accumulated into `total_rates`. -/
def run_update_step (clients : String → Option FetchOutcome) (wf : WriteFail)
    (t : Int) (acc : UpdateResult × FileSys) (source_name : String) :
    UpdateResult × FileSys :=
  let res := acc.1
  let fs := acc.2
  match clients source_name with
  | none => (res, fs)
  | some (.raiseErr _) =>
      ({ res with failed_sources := res.failed_sources ++ [source_name] }, fs)
  | some (.ok d) =>
      if 1 < d.size then
        let m := d.meta.getD {}
        match save_current_rates d.pairs m t wf fs with
        | (.error _, fs1) =>
            ({ res with failed_sources := res.failed_sources ++ [source_name] }, fs1)
        | (.ok _, fs1) =>
          match save_historical_record d.pairs m t wf fs1 with
          | (.error _, fs2) =>
              ({ res with failed_sources := res.failed_sources ++ [source_name] }, fs2)
          | (.ok _, fs2) =>
              ({ res with
                  successful_sources := res.successful_sources ++ [source_name]
                , total_rates := res.total_rates + d.pairs.length }, fs2)
      else
        ({ res with failed_sources := res.failed_sources ++ [source_name] }, fs)

/-- Embeds `RatesUpdater.run_update` (updater.py lines 23-91) over an explicit
client table (the fetch outcome each configured client produces in this run)
and a failure-injection point for the storage writes. -/
def run_update (clients : String → Option FetchOutcome) (wf : WriteFail)
    (t : Int) (sources : List String) (fs : FileSys) : UpdateResult × FileSys :=
  sources.foldl (run_update_step clients wf t) (⟨[], [], 0⟩, fs)

/-- Default source list of `run_update` (updater.py line 26). -/
def DEFAULT_SOURCES : List String := ["coingecko", "exchangerate"]

/-- Python dict assignment `d[k] = v` on a pair-keyed dict: overwrite in place
when the key exists, append otherwise. -/
def dinsert (d : List (String × Rat)) (k : String) (v : Rat) :
    List (String × Rat) :=
  if d.any (fun kv => kv.1 == k) then
    d.map (fun kv => if kv.1 == k then (k, v) else kv)
  else d ++ [(k, v)]

/-- Base currency of the parser configuration (config.py line 15). -/
def BASE_CURRENCY : String := "USD"

/-- Crypto id table of the parser configuration (config.py lines 60-69),
in insertion order. -/
def CRYPTO_ID_MAP : List (String × String) :=
  [("BTC", "bitcoin"), ("ETH", "ethereum"), ("SOL", "solana"),
   ("BNB", "binancecoin"), ("XRP", "ripple"), ("ADA", "cardano"),
   ("DOGE", "dogecoin"), ("DOT", "polkadot")]

/-- Fiat currency list of the parser configuration (config.py lines 16-17). -/
def FIAT_CURRENCIES : List String :=
  ["EUR", "GBP", "RUB", "JPY", "CNY", "CHF", "CAD", "AUD"]

/-- Loop body of `CoinGeckoClient.fetch_rates` (api_clients.py lines 82-89)
for one `(crypto_code, crypto_id)` entry: `resp id` is the `usd` value of
provider id `id` when `crypto_id in data and "usd" in data[crypto_id]`, else
`none`.  The raw value is stored under `CODE_USD` unconditionally and the
reciprocal under `USD_CODE` only when the raw value is positive. -/
def coingecko_step (resp : String → Option Rat) (acc : List (String × Rat))
    (cp : String × String) : List (String × Rat) :=
  match resp cp.2 with
  | none => acc
  | some v =>
    let acc1 := dinsert acc (cp.1 ++ "_" ++ BASE_CURRENCY) v
    if 0 < v then dinsert acc1 (BASE_CURRENCY ++ "_" ++ cp.1) (1 / v)
    else acc1

/-- Embeds `CoinGeckoClient.fetch_rates` (api_clients.py lines 63-97) applied
to a decoded provider response: the loop over `CRYPTO_ID_MAP`, then the
`"_meta"` entry. -/
def CoinGeckoClient.fetch_rates (resp : String → Option Rat) : RatesDict :=
  { pairs := CRYPTO_ID_MAP.foldl (coingecko_step resp) []
  , meta := some { source := some "CoinGecko" } }

/-- Decoded response of the exchangerate-style provider (api_clients.py
lines 102-137): `result`, optional `base_code`, the `conversion_rates` table
and the optional `error-type`. -/
structure ERResponse where
  result : String
  base_code : Option String
  conversion_rates : String → Option Rat
  error_type : Option String

/-- Loop body of `ExchangeRateApiClient.fetch_rates` (api_clients.py lines
117-125) for one configured fiat code: a conversion rate present in the
response is stored raw under `CODE_BASE` and as reciprocal under `BASE_CODE`
only when positive. -/
def exchangerate_step (resp : ERResponse) (base : String)
    (acc : List (String × Rat)) (c : String) : List (String × Rat) :=
  match resp.conversion_rates c with
  | none => acc
  | some r =>
    let acc1 := dinsert acc (c ++ "_" ++ base) r
    if 0 < r then dinsert acc1 (base ++ "_" ++ c) (1 / r) else acc1

/-- Embeds `ExchangeRateApiClient.fetch_rates` (api_clients.py lines 102-137):
a non-success `result` is a hard `ApiRequestError`; otherwise the loop over
`FIAT_CURRENCIES` runs with the response's base code (default `"USD"`), the
identity entry `BASE_BASE = 1.0` is set last, and the `"_meta"` entry is
attached. -/
def ExchangeRateApiClient.fetch_rates (resp : ERResponse) :
    Except PyErr RatesDict :=
  if resp.result ≠ "success" then
    .error (.apiRequest ("API vernulo oshibku: " ++ resp.error_type.getD "unknown"))
  else
    let base := resp.base_code.getD BASE_CURRENCY
    let pairs0 := FIAT_CURRENCIES.foldl (exchangerate_step resp base) []
    .ok { pairs := dinsert pairs0 (base ++ "_" ++ base) 1
        , meta := some { source := some "ExchangeRate-API"
                       , base_currency := some base } }

/-- Embeds `get_currency` (core/currencies.py lines 87-92): uppercase the code
and look it up in the registry, raising `CurrencyNotFoundError` when absent.
The registry is the list of registered (uppercase) codes. -/
def get_currency (registry : List String) (code : String) :
    Except PyErr String :=
  let c := pyUpper code
  if registry.contains c then .ok c else .error (.currencyNotFound c)

/-- I/O actions the resolver can perform, in order of the lookup policy:
read the snapshot file, read the secondary keyed cache (`db.read("rates")`),
trigger a synchronous `run_update`. -/
inductive Eff
  | readSnapshot
  | readSecondaryCache
  | refresh
deriving DecidableEq, Repr

/-- One entry of the secondary keyed cache consulted by `RateManager.get_rate`
(usecases.py lines 248-259). -/
structure CacheEntry where
  rate : Rat
  updated_at : Int
deriving DecidableEq, Repr

/-- Decoded content of the secondary keyed cache: the pair-keyed entries and
the top-level `source` value used as the reported source. -/
structure SecondaryCache where
  entries : List (String × CacheEntry)
  source : Option String
deriving DecidableEq, Repr

/-- Rate answer of `RateManager.get_rate`. -/
structure RateResult where
  rate : Rat
  timestamp : Int
  source : String
deriving DecidableEq, Repr

/-- Environment of one `RateManager.get_rate` call: the currency registry, the
snapshot file as it is on disk, the secondary cache (`none` when
`db.read("rates")` returned a falsy or non-dict value), the TTL from settings
(default 300), the current time, and the outcome of the refresh tier (the
post-`run_update` snapshot re-read, or the exception message when the refresh
itself raised). -/
structure RateEnv where
  registry : List String
  snapshot_file : SnapFile
  secondary : Option SecondaryCache
  ttl : Int
  now : Int
  refreshed : Except String SnapData
deriving Repr

/-- Refresh tier of `RateManager.get_rate` (usecases.py lines 261-276):
synchronously run the update, re-read the snapshot and answer from it, or
raise `ApiRequestError` when the refresh raised or the pair is still absent. -/
def refreshAndRecheck (env : RateEnv) (pair : String) :
    Except PyErr RateResult × List Eff :=
  match env.refreshed with
  | .error e =>
      (.error (.apiRequest e), [.readSnapshot, .readSecondaryCache, .refresh])
  | .ok snap2 =>
    match snap2.pairs.lookup pair with
    | some ri =>
        (.ok { rate := ri.rate, timestamp := ri.updated_at, source := ri.source },
         [.readSnapshot, .readSecondaryCache, .refresh, .readSnapshot])
    | none =>
        (.error (.apiRequest ("Kurs dlja " ++ pair ++ " nedostupen")),
         [.readSnapshot, .readSecondaryCache, .refresh, .readSnapshot])

/-- Embeds `RateManager.get_rate` (usecases.py lines 218-276) together with the
trace of I/O actions it performs.  Both codes are upper-cased, then validated
(`get_currency` fails fast with no I/O); an identity pair returns the
synthetic `System` entry; a snapshot hit is returned as-is with no TTL check;
otherwise the secondary cache is consulted honoring the TTL
(`now - last_updated < ttl`), and only a fresh entry is returned; otherwise
the refresh tier runs. -/
def get_rate (env : RateEnv) (from_currency to_currency : String) :
    Except PyErr RateResult × List Eff :=
  let fromC := pyUpper from_currency
  let toC := pyUpper to_currency
  match get_currency env.registry fromC with
  | .error e => (.error e, [])
  | .ok _ =>
    match get_currency env.registry toC with
    | .error e => (.error e, [])
    | .ok _ =>
      if fromC = toC then
        (.ok { rate := 1, timestamp := env.now, source := "System" }, [])
      else
        let pair := fromC ++ "_" ++ toC
        match get_current_rates env.snapshot_file with
        | .error e => (.error e, [.readSnapshot])
        | .ok snap =>
          match snap.pairs.lookup pair with
          | some ri =>
              (.ok { rate := ri.rate, timestamp := ri.updated_at
                   , source := ri.source },
               [.readSnapshot])
          | none =>
            let cached : Option RateResult :=
              match env.secondary with
              | none => none
              | some sc =>
                match sc.entries.lookup pair with
                | none => none
                | some ci =>
                  if env.now - ci.updated_at < env.ttl then
                    some { rate := ci.rate, timestamp := ci.updated_at
                         , source := sc.source.getD "Cache" }
                  else none
            match cached with
            | some r => (.ok r, [.readSnapshot, .readSecondaryCache])
            | none => refreshAndRecheck env pair

/-- Report of the modelled `RatesUpdater.get_update_status`. -/
structure UpdateStatus where
  last_refresh : Option Int
  is_fresh : Bool
deriving DecidableEq, Repr

/-- Modelled from the spec: `RatesUpdater.get_update_status` is invoked by
`ParserScheduler.get_status` (scheduler.py line 123) and by the CLI but its
definition is not present under the source tree, only its callers.  Per the
spec, `status()` reports the "last-refresh timestamp, and a freshness flag
(fresh if age under the TTL)": the last refresh is the snapshot's
`last_refresh`, and the data is fresh iff a last refresh exists and its age
`now - t` is under the TTL. -/
def get_update_status (snap : SnapData) (now ttl : Int) : UpdateStatus :=
  { last_refresh := snap.last_refresh
  , is_fresh := match snap.last_refresh with
      | none => false
      | some t => decide (now - t < ttl) }

/-- Scheduler state observed by `get_status`: whether a scheduler object
exists, the running flag, and the number of active jobs. -/
structure SchedState where
  hasScheduler : Bool
  is_running : Bool
  jobs_count : Nat
deriving DecidableEq, Repr

/-- Status dict returned by `ParserScheduler.get_status`; the fields absent
from the stopped report are `none`. -/
structure StatusReport where
  status : String
  is_running : Bool
  jobs_count : Option Nat
  update_interval_minutes : Option Int
  last_update : Option Int
  is_fresh : Option Bool
deriving DecidableEq, Repr

/-- Embeds `ParserScheduler.get_status` (scheduler.py lines 115-132) over the
modelled `get_update_status`: a stopped (or scheduler-less) service reports
the short stopped dict; a running one reports the job count, the configured
interval, the last refresh and the freshness flag. -/
def get_status (sch : SchedState) (snap : SnapData) (now ttl interval : Int) :
    StatusReport :=
  if !sch.hasScheduler || !sch.is_running then
    { status := "stopped", is_running := false, jobs_count := none
    , update_interval_minutes := none, last_update := none, is_fresh := none }
  else
    let us := get_update_status snap now ttl
    { status := "running", is_running := true
    , jobs_count := some sch.jobs_count
    , update_interval_minutes := some interval
    , last_update := us.last_refresh
    , is_fresh := some us.is_fresh }

end ValutaTrade

namespace ValutaTrade

theorem char_toNat_ofNat_valid (n : Nat) (h : n.isValidChar) :
    (Char.ofNat n).toNat = n := by
  unfold Char.ofNat
  rw [dif_pos h]
  rfl

theorem toUpper_not_lower (c : Char) :
    ¬((Char.toUpper c).toNat ≥ 97 ∧ (Char.toUpper c).toNat ≤ 122) := by
  unfold Char.toUpper
  by_cases h : c.toNat ≥ 97 ∧ c.toNat ≤ 122
  · rw [if_pos h]
    have hv : (c.toNat - 32).isValidChar := by
      left; omega
    rw [char_toNat_ofNat_valid _ hv]
    omega
  · rw [if_neg h]
    exact h

theorem toUpper_idem (c : Char) :
    Char.toUpper (Char.toUpper c) = Char.toUpper c := by
  conv_lhs => rw [Char.toUpper]
  rw [if_neg (toUpper_not_lower c)]

theorem pyUpper_idem (s : String) : pyUpper (pyUpper s) = pyUpper s := by
  show String.mk (List.map Char.toUpper (List.map Char.toUpper s.data))
      = String.mk (List.map Char.toUpper s.data)
  rw [List.map_map]
  congr 1
  exact List.map_congr_left (fun c _ => toUpper_idem c)

theorem get_rate_unknown_from (env : RateEnv) (f t : String)
    (hf : env.registry.contains (pyUpper f) = false) :
    get_rate env f t = (.error (.currencyNotFound (pyUpper f)), []) := by
  have hf2 : pyUpper f ∉ env.registry := by simpa using hf
  unfold get_rate get_currency
  simp [pyUpper_idem, hf2]

theorem get_rate_unknown_to (env : RateEnv) (f t : String)
    (hf : env.registry.contains (pyUpper f) = true)
    (ht : env.registry.contains (pyUpper t) = false) :
    get_rate env f t = (.error (.currencyNotFound (pyUpper t)), []) := by
  have hf2 : pyUpper f ∈ env.registry := by simpa using hf
  have ht2 : pyUpper t ∉ env.registry := by simpa using ht
  unfold get_rate get_currency
  simp [pyUpper_idem, hf2, ht2]

/-- C10: `get_rate` is case-insensitive in both currency-code arguments: on
any fixed store state, resolving `(a, b)` is identical (same rate, source,
error and I/O behaviour) to resolving the upper-cased codes, because both
codes are upper-cased before validation and lookup. -/
theorem get_rate_case_insensitive (env : RateEnv) (f t : String) :
    get_rate env f t = get_rate env (pyUpper f) (pyUpper t) := by
  simp only [get_rate, pyUpper_idem]

/-- C9: resolving a pair where either code is not a registered currency fails
with `CurrencyNotFound` and performs no I/O — the trace of snapshot reads,
cache reads and refreshes is empty. -/
theorem get_rate_unknown_no_io (env : RateEnv) (f t : String)
    (h : env.registry.contains (pyUpper f) = false ∨
         env.registry.contains (pyUpper t) = false) :
    (∃ c, (get_rate env f t).1 = .error (.currencyNotFound c)) ∧
    (get_rate env f t).2 = [] := by
  by_cases hf : env.registry.contains (pyUpper f) = false
  · rw [get_rate_unknown_from env f t hf]
    exact ⟨⟨pyUpper f, rfl⟩, rfl⟩
  · have hf' : env.registry.contains (pyUpper f) = true := by
      revert hf
      cases env.registry.contains (pyUpper f) <;> simp
    have ht : env.registry.contains (pyUpper t) = false := by
      rcases h with h | h
      · rw [h] at hf'; cases hf'
      · exact h
    rw [get_rate_unknown_to env f t hf' ht]
    exact ⟨⟨pyUpper t, rfl⟩, rfl⟩

theorem get_rate_unknown_no_io_witness :
    (∃ c, (get_rate { registry := ["USD", "EUR"], snapshot_file := .missing
                    , secondary := none, ttl := 300, now := 0
                    , refreshed := .ok emptySnapshot } "xxx" "usd").1
            = .error (.currencyNotFound c)) ∧
    (get_rate { registry := ["USD", "EUR"], snapshot_file := .missing
              , secondary := none, ttl := 300, now := 0
              , refreshed := .ok emptySnapshot } "xxx" "usd").2 = [] :=
  get_rate_unknown_no_io _ "xxx" "usd" (Or.inl (by decide))

/-- C8 (corrected): a missing snapshot file and a file with corrupt (non-JSON)
content both yield the empty snapshot without raising; the unreadable case is
excluded because the OS error propagates (see the counterexample). -/
theorem get_current_rates_cold_start :
    get_current_rates .missing = .ok emptySnapshot ∧
    get_current_rates .corrupt = .ok emptySnapshot :=
  ⟨rfl, rfl⟩

/-- C8 counterexample: a snapshot file that exists but cannot be read (an OS
error such as `PermissionError` on open/read) is not caught by
`except (json.JSONDecodeError, FileNotFoundError)`, so `get_current_rates`
raises instead of returning the empty snapshot. -/
theorem get_current_rates_unreadable_raises :
    get_current_rates .unreadable = .error .osError ∧
    get_current_rates .unreadable ≠ .ok emptySnapshot :=
  ⟨rfl, by decide⟩

/-- C5: whenever the scheduler is running (with a scheduler object present),
`get_status` returns the running report with the active job count, the
last-refresh timestamp, and a freshness flag that is true iff the age of the
last refresh is under the TTL; no error is raised (the function is total). -/
theorem get_status_running (sch : SchedState) (snap : SnapData)
    (now ttl interval t : Int)
    (hsch : sch.hasScheduler = true) (hrun : sch.is_running = true)
    (hlast : snap.last_refresh = some t) :
    get_status sch snap now ttl interval =
      { status := "running", is_running := true
      , jobs_count := some sch.jobs_count
      , update_interval_minutes := some interval
      , last_update := some t
      , is_fresh := some (decide (now - t < ttl)) } ∧
    ((get_status sch snap now ttl interval).is_fresh = some true ↔
      now - t < ttl) := by
  unfold get_status get_update_status
  rw [hsch, hrun, hlast]
  simp

theorem get_status_running_witness :
    get_status { hasScheduler := true, is_running := true, jobs_count := 2 }
        { pairs := [], last_refresh := some 100, source := some "CoinGecko" }
        200 300 5 =
      { status := "running", is_running := true, jobs_count := some 2
      , update_interval_minutes := some 5, last_update := some 100
      , is_fresh := some (decide ((200 : Int) - 100 < 300)) } :=
  (get_status_running _ _ 200 300 5 100 rfl rfl rfl).1

end ValutaTrade

namespace ValutaTrade

theorem isEmpty_false_of_ne_nil {α} {l : List α} (h : l ≠ []) :
    l.isEmpty = false := by
  cases l with
  | nil => exact absurd rfl h
  | cons x xs => rfl

theorem length_filter_compl {α} (l : List α) (p : α → Bool) :
    (l.filter p).length + (l.filter (fun a => !(p a))).length = l.length := by
  induction l with
  | nil => rfl
  | cons x xs ih =>
    cases hx : p x <;> simp [List.filter_cons, hx] <;> omega

/-- C3: a successful `save_current_rates` of a non-empty well-formed rate map
(no metadata keys) succeeds, and a subsequent `get_current_rates` returns a
snapshot whose pairs are exactly the entries of the map — same keys, same
rates, all stamped with the write timestamp and source — independently of
whatever snapshot was on disk before: the write replaces the snapshot
wholesale. -/
theorem save_then_read_roundtrip (rates : List (String × Rat)) (m : SourceMeta)
    (t : Int) (fs : FileSys) (hne : rates ≠ [])
    (hclean : ∀ kv ∈ rates, startswithUnderscore kv.1 = false) :
    (save_current_rates rates m t .noFail fs).1 = .ok () ∧
    get_current_rates (save_current_rates rates m t .noFail fs).2.rates_file =
      .ok { pairs := rates.map (fun kv =>
              (kv.1, { rate := kv.2, updated_at := t
                     , source := m.source.getD "Unknown" }))
          , last_refresh := some t
          , source := some (m.source.getD "Unknown") } := by
  have hne' : rates.isEmpty = false := isEmpty_false_of_ne_nil hne
  have hcl : cleanRates rates = rates := by
    unfold cleanRates
    apply List.filter_eq_self.mpr
    intro kv hkv
    simp [hclean kv hkv]
  constructor
  · simp [save_current_rates, hne']
  · simp [save_current_rates, hne', get_current_rates, snapshotOf, hcl]

theorem save_then_read_roundtrip_witness :
    (save_current_rates [("EUR_USD", 2), ("USD_EUR", 1 / 2)]
        { source := some "TestSource" } 7 .noFail
        { rates_file := .valid { pairs := [("BTC_USD", { rate := 3, updated_at := 1, source := "Old" })]
                               , last_refresh := some 1, source := some "Old" }
        , history_file := .missing, rates_temp := false, history_temp := false }).1
      = .ok () ∧
    get_current_rates
        (save_current_rates [("EUR_USD", 2), ("USD_EUR", 1 / 2)]
          { source := some "TestSource" } 7 .noFail
          { rates_file := .valid { pairs := [("BTC_USD", { rate := 3, updated_at := 1, source := "Old" })]
                                 , last_refresh := some 1, source := some "Old" }
          , history_file := .missing, rates_temp := false, history_temp := false }).2.rates_file
      = .ok { pairs := [("EUR_USD", { rate := 2, updated_at := 7, source := "TestSource" })
                       , ("USD_EUR", { rate := 1 / 2, updated_at := 7, source := "TestSource" })]
            , last_refresh := some 7, source := some "TestSource" } := by
  have h := save_then_read_roundtrip [("EUR_USD", 2), ("USD_EUR", 1 / 2)]
    { source := some "TestSource" } 7
    { rates_file := .valid { pairs := [("BTC_USD", { rate := 3, updated_at := 1, source := "Old" })]
                           , last_refresh := some 1, source := some "Old" }
    , history_file := .missing, rates_temp := false, history_temp := false }
    (by decide) (by decide)
  exact h

/-- C4: a snapshot write that fails at any point of the temp-file discipline
(temp creation, the temp write, or the atomic rename) leaves no temp artifact
behind, raises a persistence `RuntimeError`, and leaves the previously written
snapshot untouched: a read after the failed write returns exactly the
pre-failure snapshot. -/
theorem save_failure_atomic (rates : List (String × Rat)) (m : SourceMeta)
    (t : Int) (wf : WriteFail) (fs : FileSys) (hwf : wf ≠ .noFail)
    (hne : rates ≠ []) (htemp : fs.rates_temp = false) :
    (∃ msg, (save_current_rates rates m t wf fs).1 = .error (.runtime msg)) ∧
    (save_current_rates rates m t wf fs).2.rates_file = fs.rates_file ∧
    (save_current_rates rates m t wf fs).2.rates_temp = false ∧
    get_current_rates (save_current_rates rates m t wf fs).2.rates_file =
      get_current_rates fs.rates_file := by
  have hne' : rates.isEmpty = false := isEmpty_false_of_ne_nil hne
  cases wf with
  | noFail => exact absurd rfl hwf
  | mkstempFail =>
    refine ⟨⟨"Oshibka sohranenija rates.json", ?_⟩, ?_, ?_, ?_⟩ <;>
      simp [save_current_rates, hne', htemp]
  | writeFail =>
    refine ⟨⟨"Oshibka sohranenija rates.json", ?_⟩, ?_, ?_, ?_⟩ <;>
      simp [save_current_rates, hne']
  | replaceFail =>
    refine ⟨⟨"Oshibka sohranenija rates.json", ?_⟩, ?_, ?_, ?_⟩ <;>
      simp [save_current_rates, hne']

theorem save_failure_atomic_witness :
    (∃ msg, (save_current_rates [("EUR_USD", 2)] { source := some "S" } 9 .writeFail
        { rates_file := .valid { pairs := [("BTC_USD", { rate := 3, updated_at := 1, source := "Old" })]
                               , last_refresh := some 1, source := some "Old" }
        , history_file := .missing, rates_temp := false, history_temp := false }).1
      = .error (.runtime msg)) ∧
    (save_current_rates [("EUR_USD", 2)] { source := some "S" } 9 .writeFail
        { rates_file := .valid { pairs := [("BTC_USD", { rate := 3, updated_at := 1, source := "Old" })]
                               , last_refresh := some 1, source := some "Old" }
        , history_file := .missing, rates_temp := false, history_temp := false }).2.rates_file
      = .valid { pairs := [("BTC_USD", { rate := 3, updated_at := 1, source := "Old" })]
               , last_refresh := some 1, source := some "Old" } ∧
    (save_current_rates [("EUR_USD", 2)] { source := some "S" } 9 .writeFail
        { rates_file := .valid { pairs := [("BTC_USD", { rate := 3, updated_at := 1, source := "Old" })]
                               , last_refresh := some 1, source := some "Old" }
        , history_file := .missing, rates_temp := false, history_temp := false }).2.rates_temp
      = false := by
  have h := save_failure_atomic [("EUR_USD", 2)] { source := some "S" } 9 .writeFail
    { rates_file := .valid { pairs := [("BTC_USD", { rate := 3, updated_at := 1, source := "Old" })]
                           , last_refresh := some 1, source := some "Old" }
    , history_file := .missing, rates_temp := false, history_temp := false }
    (by decide) (by decide) rfl
  exact ⟨h.1, h.2.1, h.2.2.1⟩

end ValutaTrade

namespace ValutaTrade

/-- C7 counterexample: a record whose age is exactly `maxAgeDays` (timestamp
equal to the cutoff `now - 30 * 86400`) is not older than `now - maxAgeDays`,
yet `cleanup_old_records` removes it and returns 1, because the code keeps
only records with `timestamp > cutoff`. -/
theorem cleanup_boundary_removed :
    (cleanup_old_records 5184000 30 .noFail
      { rates_file := .missing
      , history_file := .valid
          [{ id := "r0", from_currency := "EUR", to_currency := "USD"
           , rate := 2, timestamp := 2592000, source := "X" }]
      , rates_temp := false, history_temp := false }).1 = .ok 1 ∧
    ¬((2592000 : Int) < 5184000 - 30 * 24 * 60 * 60) := by
  constructor
  · decide
  · decide

/-- C7 (corrected): pruning with `maxAgeDays` removes exactly the records
whose age is at least `maxAgeDays` — timestamp at or before the cutoff
`now - maxAgeDays` in seconds — keeps exactly the strictly younger records in
order, returns the removed count (0 when nothing qualifies), and rewrites the
ledger only when at least one record was removed. -/
theorem cleanup_old_records_spec (now maxAge : Int) (l : List HistRecord)
    (fs : FileSys) (hfile : fs.history_file = .valid l) :
    (cleanup_old_records now maxAge .noFail fs).1 =
      .ok (l.filter (fun r =>
            decide (r.timestamp ≤ now - maxAge * 24 * 60 * 60))).length ∧
    ((cleanup_old_records now maxAge .noFail fs).2.2 = true ↔
      (l.filter (fun r =>
        decide (r.timestamp ≤ now - maxAge * 24 * 60 * 60))).length ≠ 0) ∧
    ((cleanup_old_records now maxAge .noFail fs).2.2 = true →
      (cleanup_old_records now maxAge .noFail fs).2.1.history_file =
        .valid (l.filter (fun r =>
          decide (now - maxAge * 24 * 60 * 60 < r.timestamp)))) ∧
    ((cleanup_old_records now maxAge .noFail fs).2.2 = false →
      (cleanup_old_records now maxAge .noFail fs).2.1 = fs) := by
  have hsum := length_filter_compl l
    (fun r => decide (now - maxAge * 24 * 60 * 60 < r.timestamp))
  have hcompl : (fun r : HistRecord =>
      !(decide (now - maxAge * 24 * 60 * 60 < r.timestamp)))
      = (fun r => decide (r.timestamp ≤ now - maxAge * 24 * 60 * 60)) := by
    funext r
    by_cases h : now - maxAge * 24 * 60 * 60 < r.timestamp
    · simp [h, not_le.mpr h]
    · simp [h, not_lt.mp h]
  rw [hcompl] at hsum
  cases l with
  | nil =>
    simp [cleanup_old_records, hfile, load_historical_data]
  | cons x xs =>
    have hkle := List.length_filter_le
      (fun r => decide (now - maxAge * 24 * 60 * 60 < r.timestamp)) (x :: xs)
    simp only [cleanup_old_records, hfile, load_historical_data,
      List.isEmpty_cons]
    by_cases hlt : ((x :: xs).filter (fun r =>
        decide (now - maxAge * 24 * 60 * 60 < r.timestamp))).length
        < (x :: xs).length
    · rw [if_pos hlt]
      have hrem : (x :: xs).length - ((x :: xs).filter (fun r =>
          decide (now - maxAge * 24 * 60 * 60 < r.timestamp))).length
          = ((x :: xs).filter (fun r =>
              decide (r.timestamp ≤ now - maxAge * 24 * 60 * 60))).length := by
        omega
      refine ⟨?_, ?_, ?_, ?_⟩
      · exact congrArg Except.ok hrem
      · constructor
        · intro _
          omega
        · intro _
          rfl
      · intro _
        rfl
      · intro h
        exact Bool.noConfusion h
    · rw [if_neg hlt]
      have hz : ((x :: xs).filter (fun r =>
          decide (r.timestamp ≤ now - maxAge * 24 * 60 * 60))).length = 0 := by
        omega
      refine ⟨?_, ?_, ?_, ?_⟩
      · exact congrArg Except.ok hz.symm
      · constructor
        · intro h
          exact Bool.noConfusion h
        · intro hne
          exact absurd hz hne
      · intro h
        exact Bool.noConfusion h
      · intro _
        rfl

theorem cleanup_old_records_spec_witness :
    (cleanup_old_records 3456000 30 .noFail
      { rates_file := .missing
      , history_file := .valid
          [{ id := "a", from_currency := "EUR", to_currency := "USD"
           , rate := 2, timestamp := 777600, source := "X" },
           { id := "b", from_currency := "USD", to_currency := "EUR"
           , rate := 3, timestamp := 3369600, source := "X" }]
      , rates_temp := false, history_temp := false }).1 = .ok 1 := by
  have h := (cleanup_old_records_spec 3456000 30
    [{ id := "a", from_currency := "EUR", to_currency := "USD"
     , rate := 2, timestamp := 777600, source := "X" },
     { id := "b", from_currency := "USD", to_currency := "EUR"
     , rate := 3, timestamp := 3369600, source := "X" }]
    { rates_file := .missing
    , history_file := .valid
        [{ id := "a", from_currency := "EUR", to_currency := "USD"
         , rate := 2, timestamp := 777600, source := "X" },
         { id := "b", from_currency := "USD", to_currency := "EUR"
         , rate := 3, timestamp := 3369600, source := "X" }]
    , rates_temp := false, history_temp := false } rfl).1
  rw [h]
  decide

end ValutaTrade

namespace ValutaTrade

theorem refreshAndRecheck_refreshes (env : RateEnv) (pair : String) :
    Eff.refresh ∈ (refreshAndRecheck env pair).2 := by
  rcases henv : env.refreshed with e | s2
  · simp [refreshAndRecheck, henv]
  · rcases hlk : s2.pairs.lookup pair with _ | ri <;>
      simp [refreshAndRecheck, henv, hlk]

/-- C6: when the requested pair is absent from the snapshot and the secondary
keyed cache holds an entry whose age is at least the TTL, `get_rate` does not
answer from that stale entry: it proceeds to the refresh tier — triggering a
synchronous `run_update` — and answers from the post-refresh snapshot or
fails. -/
theorem get_rate_stale_cache_refreshes (env : RateEnv) (f t : String)
    (hf : env.registry.contains (pyUpper f) = true)
    (ht : env.registry.contains (pyUpper t) = true)
    (hne : pyUpper f ≠ pyUpper t)
    (snap : SnapData)
    (hread : get_current_rates env.snapshot_file = .ok snap)
    (hmiss : snap.pairs.lookup (pyUpper f ++ "_" ++ pyUpper t) = none)
    (sc : SecondaryCache) (hsc : env.secondary = some sc)
    (ci : CacheEntry)
    (hci : sc.entries.lookup (pyUpper f ++ "_" ++ pyUpper t) = some ci)
    (hstale : env.ttl ≤ env.now - ci.updated_at) :
    get_rate env f t =
      refreshAndRecheck env (pyUpper f ++ "_" ++ pyUpper t) ∧
    Eff.refresh ∈ (get_rate env f t).2 := by
  have hf2 : pyUpper f ∈ env.registry := by simpa using hf
  have ht2 : pyUpper t ∈ env.registry := by simpa using ht
  have hfresh : ¬(env.now - ci.updated_at < env.ttl) := not_lt.mpr hstale
  have h1 : get_rate env f t =
      refreshAndRecheck env (pyUpper f ++ "_" ++ pyUpper t) := by
    unfold get_rate get_currency
    simp [pyUpper_idem, hf2, ht2, hne, hread, hmiss, hsc, hci, hfresh]
  exact ⟨h1, h1 ▸ refreshAndRecheck_refreshes env _⟩

theorem get_rate_stale_cache_refreshes_witness :
    Eff.refresh ∈ (get_rate
      { registry := ["USD", "EUR"]
      , snapshot_file := .valid { pairs := [], last_refresh := some 0
                                , source := some "Old" }
      , secondary := some { entries := [("EUR_USD", { rate := 2, updated_at := 0 })]
                          , source := some "Cache" }
      , ttl := 300, now := 400
      , refreshed := .ok { pairs := [("EUR_USD", { rate := 3, updated_at := 350
                                                 , source := "CoinGecko" })]
                         , last_refresh := some 350
                         , source := some "CoinGecko" } } "EUR" "USD").2 :=
  (get_rate_stale_cache_refreshes
    { registry := ["USD", "EUR"]
    , snapshot_file := .valid { pairs := [], last_refresh := some 0
                              , source := some "Old" }
    , secondary := some { entries := [("EUR_USD", { rate := 2, updated_at := 0 })]
                        , source := some "Cache" }
    , ttl := 300, now := 400
    , refreshed := .ok { pairs := [("EUR_USD", { rate := 3, updated_at := 350
                                               , source := "CoinGecko" })]
                       , last_refresh := some 350
                       , source := some "CoinGecko" } } "EUR" "USD"
    (by decide) (by decide) (by decide)
    { pairs := [], last_refresh := some 0, source := some "Old" }
    rfl rfl
    { entries := [("EUR_USD", { rate := 2, updated_at := 0 })]
    , source := some "Cache" }
    rfl
    { rate := 2, updated_at := 0 }
    (by decide) (by decide)).2

end ValutaTrade

namespace ValutaTrade

theorem pairs_nonempty_of_size (d : RatesDict) (hsize : 1 < d.size) :
    d.pairs.isEmpty = false := by
  unfold RatesDict.size at hsize
  cases hp : d.pairs with
  | nil =>
    rw [hp] at hsize
    cases hm : d.meta <;> rw [hm] at hsize <;> simp at hsize
  | cons x xs => rfl

theorem run_update_step_fail (clients : String → Option FetchOutcome)
    (wf : WriteFail) (t : Int) (res : UpdateResult) (fs : FileSys) (s : String)
    (oa : FetchOutcome) (hc : clients s = some oa) (hf : failingOutcome oa) :
    run_update_step clients wf t (res, fs) s
      = ({ res with failed_sources := res.failed_sources ++ [s] }, fs) := by
  cases oa with
  | raiseErr m => simp [run_update_step, hc]
  | ok d =>
    have hns : ¬(1 < d.size) := by
      simp only [failingOutcome] at hf
      omega
    simp [run_update_step, hc, hns]

theorem run_update_step_success (clients : String → Option FetchOutcome)
    (t : Int) (res : UpdateResult) (fs : FileSys) (s : String) (d : RatesDict)
    (hc : clients s = some (.ok d)) (hsize : 1 < d.size)
    (hl : List HistRecord)
    (hload : load_historical_data fs.history_file = .ok hl) :
    run_update_step clients .noFail t (res, fs) s
      = ({ res with
            successful_sources := res.successful_sources ++ [s]
          , total_rates := res.total_rates + d.pairs.length },
         (save_historical_record d.pairs (d.meta.getD {}) t .noFail
           (save_current_rates d.pairs (d.meta.getD {}) t .noFail fs).2).2) := by
  have hpne : d.pairs.isEmpty = false := pairs_nonempty_of_size d hsize
  simp [run_update_step, hc, hsize, save_current_rates, hpne,
    save_historical_record, hload]

/-- C1: over two configured providers where one fails (its fetch raises or
yields no usable pairs) and the other succeeds, `run_update` lists the
failing provider in `failed_sources`, the succeeding provider in
`successful_sources`, and `total_rates` equals exactly the number of pairs in
the succeeding provider's rate map excluding the metadata entry; in either
processing order the failure does not prevent the succeeding provider from
being fetched and written through to the snapshot and the ledger. -/
theorem run_update_partial_failure (clients : String → Option FetchOutcome)
    (t : Int) (fs : FileSys) (a b : String) (oa : FetchOutcome) (d : RatesDict)
    (hl : List HistRecord)
    (hca : clients a = some oa) (hfail : failingOutcome oa)
    (hcb : clients b = some (.ok d)) (hsize : 1 < d.size)
    (hload : load_historical_data fs.history_file = .ok hl) :
    run_update clients .noFail t [a, b] fs =
      ({ successful_sources := [b], failed_sources := [a]
       , total_rates := d.pairs.length },
       (save_historical_record d.pairs (d.meta.getD {}) t .noFail
         (save_current_rates d.pairs (d.meta.getD {}) t .noFail fs).2).2) ∧
    run_update clients .noFail t [b, a] fs =
      ({ successful_sources := [b], failed_sources := [a]
       , total_rates := d.pairs.length },
       (save_historical_record d.pairs (d.meta.getD {}) t .noFail
         (save_current_rates d.pairs (d.meta.getD {}) t .noFail fs).2).2) := by
  have hfs1 : (save_current_rates d.pairs (d.meta.getD {}) t .noFail fs).2.history_file
      = fs.history_file := by
    have hpne : d.pairs.isEmpty = false := pairs_nonempty_of_size d hsize
    simp [save_current_rates, hpne]
  constructor
  · show run_update_step clients .noFail t
        (run_update_step clients .noFail t (⟨[], [], 0⟩, fs) a) b = _
    rw [run_update_step_fail clients .noFail t ⟨[], [], 0⟩ fs a oa hca hfail]
    rw [run_update_step_success clients t _ fs b d hcb hsize hl hload]
    simp
  · show run_update_step clients .noFail t
        (run_update_step clients .noFail t (⟨[], [], 0⟩, fs) b) a = _
    rw [run_update_step_success clients t _ fs b d hcb hsize hl hload]
    rw [run_update_step_fail clients .noFail t _ _ a oa hca hfail]
    simp

theorem run_update_partial_failure_witness :
    run_update
      (fun s => if s == "exchangerate" then some (.raiseErr "timeout")
                else if s == "coingecko" then
                  some (.ok { pairs := [("BTC_USD", 100), ("USD_BTC", 1 / 100)]
                            , meta := some { source := some "CoinGecko" } })
                else none)
      .noFail 5 ["exchangerate", "coingecko"]
      { rates_file := .missing, history_file := .missing
      , rates_temp := false, history_temp := false } =
      ({ successful_sources := ["coingecko"]
       , failed_sources := ["exchangerate"], total_rates := 2 },
       (save_historical_record [("BTC_USD", 100), ("USD_BTC", 1 / 100)]
         { source := some "CoinGecko" } 5 .noFail
         (save_current_rates [("BTC_USD", 100), ("USD_BTC", 1 / 100)]
           { source := some "CoinGecko" } 5 .noFail
           { rates_file := .missing, history_file := .missing
           , rates_temp := false, history_temp := false }).2).2) :=
  (run_update_partial_failure
    (fun s => if s == "exchangerate" then some (.raiseErr "timeout")
              else if s == "coingecko" then
                some (.ok { pairs := [("BTC_USD", 100), ("USD_BTC", 1 / 100)]
                          , meta := some { source := some "CoinGecko" } })
              else none)
    5
    { rates_file := .missing, history_file := .missing
    , rates_temp := false, history_temp := false }
    "exchangerate" "coingecko" (.raiseErr "timeout")
    { pairs := [("BTC_USD", 100), ("USD_BTC", 1 / 100)]
    , meta := some { source := some "CoinGecko" } }
    [] rfl trivial rfl (by decide) rfl).1

end ValutaTrade

namespace ValutaTrade

theorem dinsert_mem {d : List (String × Rat)} {k : String} {v : Rat}
    {k' : String} {v' : Rat} (h : (k', v') ∈ dinsert d k v) :
    (k' = k ∧ v' = v) ∨ (k', v') ∈ d := by
  unfold dinsert at h
  by_cases hc : d.any (fun kv => kv.1 == k)
  · rw [if_pos hc] at h
    rcases List.mem_map.mp h with ⟨kv, hkv, heq⟩
    by_cases hk : kv.1 == k
    · rw [if_pos hk] at heq
      injection heq with h1 h2
      exact Or.inl ⟨h1.symm, h2.symm⟩
    · rw [if_neg hk] at heq
      right
      rw [← heq]
      exact hkv
  · rw [if_neg hc] at h
    rcases List.mem_append.mp h with h2 | h2
    · exact Or.inr h2
    · have heq := List.mem_singleton.mp h2
      injection heq with h1 h2'
      exact Or.inl ⟨h1, h2'⟩

theorem coingecko_fold_inv (resp : String → Option Rat)
    (L : List (String × String)) :
    ∀ (l : List (String × String)) (acc : List (String × Rat)),
    (∀ x ∈ l, x ∈ L) →
    (∀ k v, (k, v) ∈ acc → 0 < v ∨
      ∃ cp, cp ∈ L ∧ k = cp.1 ++ "_" ++ BASE_CURRENCY ∧ resp cp.2 = some v) →
    ∀ k v, (k, v) ∈ l.foldl (coingecko_step resp) acc → 0 < v ∨
      ∃ cp, cp ∈ L ∧ k = cp.1 ++ "_" ++ BASE_CURRENCY ∧ resp cp.2 = some v := by
  intro l
  induction l with
  | nil =>
    intro acc _ hacc k v h
    exact hacc k v h
  | cons x xs ih =>
    intro acc hsub hacc k v h
    rw [List.foldl_cons] at h
    refine ih (coingecko_step resp acc x)
      (fun y hy => hsub y (List.mem_cons_of_mem x hy)) ?_ k v h
    intro k2 v2 hm
    unfold coingecko_step at hm
    cases hr : resp x.2 with
    | none =>
      rw [hr] at hm
      exact hacc k2 v2 hm
    | some w =>
      rw [hr] at hm
      dsimp only at hm
      by_cases hw : 0 < w
      · rw [if_pos hw] at hm
        rcases dinsert_mem hm with ⟨hk, hv⟩ | hm2
        · exact Or.inl (hv ▸ one_div_pos.mpr hw)
        · rcases dinsert_mem hm2 with ⟨hk, hv⟩ | hm3
          · refine Or.inr ⟨x, hsub x (List.mem_cons_self x xs), hk, ?_⟩
            rw [hr, hv]
          · exact hacc k2 v2 hm3
      · rw [if_neg hw] at hm
        rcases dinsert_mem hm with ⟨hk, hv⟩ | hm2
        · refine Or.inr ⟨x, hsub x (List.mem_cons_self x xs), hk, ?_⟩
          rw [hr, hv]
        · exact hacc k2 v2 hm2

theorem exchangerate_fold_inv (resp : ERResponse) (base : String)
    (L : List String) :
    ∀ (l : List String) (acc : List (String × Rat)),
    (∀ x ∈ l, x ∈ L) →
    (∀ k v, (k, v) ∈ acc → 0 < v ∨
      ∃ c, c ∈ L ∧ k = c ++ "_" ++ base ∧ resp.conversion_rates c = some v) →
    ∀ k v, (k, v) ∈ l.foldl (exchangerate_step resp base) acc → 0 < v ∨
      ∃ c, c ∈ L ∧ k = c ++ "_" ++ base ∧ resp.conversion_rates c = some v := by
  intro l
  induction l with
  | nil =>
    intro acc _ hacc k v h
    exact hacc k v h
  | cons x xs ih =>
    intro acc hsub hacc k v h
    rw [List.foldl_cons] at h
    refine ih (exchangerate_step resp base acc x)
      (fun y hy => hsub y (List.mem_cons_of_mem x hy)) ?_ k v h
    intro k2 v2 hm
    unfold exchangerate_step at hm
    cases hr : resp.conversion_rates x with
    | none =>
      rw [hr] at hm
      exact hacc k2 v2 hm
    | some w =>
      rw [hr] at hm
      dsimp only at hm
      by_cases hw : 0 < w
      · rw [if_pos hw] at hm
        rcases dinsert_mem hm with ⟨hk, hv⟩ | hm2
        · exact Or.inl (hv ▸ one_div_pos.mpr hw)
        · rcases dinsert_mem hm2 with ⟨hk, hv⟩ | hm3
          · refine Or.inr ⟨x, hsub x (List.mem_cons_self x xs), hk, ?_⟩
            rw [hr, hv]
          · exact hacc k2 v2 hm3
      · rw [if_neg hw] at hm
        rcases dinsert_mem hm with ⟨hk, hv⟩ | hm2
        · refine Or.inr ⟨x, hsub x (List.mem_cons_self x xs), hk, ?_⟩
          rw [hr, hv]
        · exact hacc k2 v2 hm2

theorem coingecko_nonpos_from_raw (resp : String → Option Rat)
    (k : String) (v : Rat)
    (h : (k, v) ∈ (CoinGeckoClient.fetch_rates resp).pairs) (hnp : v ≤ 0) :
    ∃ cp, cp ∈ CRYPTO_ID_MAP ∧ k = cp.1 ++ "_" ++ BASE_CURRENCY ∧
      resp cp.2 = some v := by
  rcases coingecko_fold_inv resp CRYPTO_ID_MAP CRYPTO_ID_MAP []
      (fun x hx => hx) (fun k2 v2 h2 => absurd h2 (List.not_mem_nil _)) k v h
    with hpos | hex
  · exact absurd hpos (not_lt.mpr hnp)
  · exact hex

theorem exchangerate_nonpos_from_raw (resp : ERResponse) (der : RatesDict)
    (hok : ExchangeRateApiClient.fetch_rates resp = .ok der)
    (k : String) (v : Rat) (h : (k, v) ∈ der.pairs) (hnp : v ≤ 0) :
    ∃ c, c ∈ FIAT_CURRENCIES ∧
      k = c ++ "_" ++ (resp.base_code.getD BASE_CURRENCY) ∧
      resp.conversion_rates c = some v := by
  unfold ExchangeRateApiClient.fetch_rates at hok
  by_cases hres : resp.result = "success"
  · rw [if_neg (not_not_intro hres)] at hok
    injection hok with hok2
    subst hok2
    have h' : (k, v) ∈ dinsert
        (FIAT_CURRENCIES.foldl
          (exchangerate_step resp (resp.base_code.getD BASE_CURRENCY)) [])
        ((resp.base_code.getD BASE_CURRENCY) ++ "_" ++
          (resp.base_code.getD BASE_CURRENCY)) 1 := h
    rcases dinsert_mem h' with ⟨hk, hv⟩ | h2
    · rw [hv] at hnp
      exact absurd hnp (by norm_num)
    · rcases exchangerate_fold_inv resp (resp.base_code.getD BASE_CURRENCY)
          FIAT_CURRENCIES FIAT_CURRENCIES [] (fun x hx => hx)
          (fun k2 v2 hx => absurd hx (List.not_mem_nil _)) k v h2
        with hpos | hex
      · exact absurd hpos (not_lt.mpr hnp)
      · exact hex
  · rw [if_pos hres] at hok
    exact Except.noConfusion hok

/-- C2 counterexample: a CoinGecko response reporting a zero `usd` value for
bitcoin is stored unvalidated under the forward key `BTC_USD` (only the
derived reverse pair is guarded by `> 0`), and a refresh persists the zero
rate into the snapshot — refuting the invariant that every persisted rate is
strictly positive. -/
theorem zero_rate_persisted_by_refresh :
    ((run_update
        (fun s => if s == "coingecko" then
            some (.ok (CoinGeckoClient.fetch_rates
              (fun id => if id == "bitcoin" then some 0 else none)))
          else none)
        .noFail 0 ["coingecko"]
        { rates_file := .missing, history_file := .missing
        , rates_temp := false, history_temp := false }).2.rates_file
      = .valid { pairs := [("BTC_USD", { rate := 0, updated_at := 0
                                       , source := "CoinGecko" })]
               , last_refresh := some 0, source := some "CoinGecko" })
    ∧ ¬(0 < (0 : Rat)) := by
  constructor
  · decide
  · decide

/-- C2 (corrected): what a refresh persists to the snapshot is exactly the
fetched rate map, and an entry with a non-positive rate can only be a
forward-direction entry (`CODE_USD` for CoinGecko, `CODE_BASE` for the
exchangerate provider) carrying the provider's raw value verbatim; every
derived reverse entry and the identity entry are strictly positive, because
the reciprocal is computed only when the raw value is positive. -/
theorem nonpositive_persisted_only_raw_forward (resp : String → Option Rat)
    (er : ERResponse) (der : RatesDict)
    (her : ExchangeRateApiClient.fetch_rates er = .ok der)
    (m : SourceMeta) (t : Int) (fs : FileSys) :
    (∀ rates, rates ≠ [] →
        (save_current_rates rates m t .noFail fs).2.rates_file
          = .valid (snapshotOf rates m t)) ∧
    (∀ k e, (k, e) ∈ (snapshotOf (CoinGeckoClient.fetch_rates resp).pairs m t).pairs →
        e.rate ≤ 0 →
        ∃ cp, cp ∈ CRYPTO_ID_MAP ∧ k = cp.1 ++ "_" ++ BASE_CURRENCY ∧
          resp cp.2 = some e.rate) ∧
    (∀ k e, (k, e) ∈ (snapshotOf der.pairs m t).pairs → e.rate ≤ 0 →
        ∃ c, c ∈ FIAT_CURRENCIES ∧
          k = c ++ "_" ++ (er.base_code.getD BASE_CURRENCY) ∧
          er.conversion_rates c = some e.rate) := by
  refine ⟨?_, ?_, ?_⟩
  · intro rates hne
    have hne' : rates.isEmpty = false := isEmpty_false_of_ne_nil hne
    simp [save_current_rates, hne']
  · intro k e hm hnp
    unfold snapshotOf at hm
    rcases List.mem_map.mp hm with ⟨kv, hkv, heq⟩
    injection heq with h1 h2
    have hrate : e.rate = kv.2 := by rw [← h2]
    unfold cleanRates at hkv
    have hkv2 : (kv.1, kv.2) ∈ (CoinGeckoClient.fetch_rates resp).pairs := by
      simpa using (List.mem_filter.mp hkv).1
    have hx := coingecko_nonpos_from_raw resp kv.1 kv.2 hkv2 (hrate ▸ hnp)
    rw [← h1, hrate]
    exact hx
  · intro k e hm hnp
    unfold snapshotOf at hm
    rcases List.mem_map.mp hm with ⟨kv, hkv, heq⟩
    injection heq with h1 h2
    have hrate : e.rate = kv.2 := by rw [← h2]
    unfold cleanRates at hkv
    have hkv2 : (kv.1, kv.2) ∈ der.pairs := by
      simpa using (List.mem_filter.mp hkv).1
    have hx := exchangerate_nonpos_from_raw er der her kv.1 kv.2 hkv2
      (hrate ▸ hnp)
    rw [← h1, hrate]
    exact hx

theorem nonpositive_persisted_only_raw_forward_witness :
    (save_current_rates [("BTC_USD", 2)] { source := some "CoinGecko" } 0
        .noFail
        { rates_file := .missing, history_file := .missing
        , rates_temp := false, history_temp := false }).2.rates_file
      = .valid (snapshotOf [("BTC_USD", 2)] { source := some "CoinGecko" } 0) :=
  (nonpositive_persisted_only_raw_forward (fun _ => none)
    { result := "success", base_code := some "USD"
    , conversion_rates := fun _ => none, error_type := none }
    { pairs := [("USD_USD", 1)]
    , meta := some { source := some "ExchangeRate-API"
                   , base_currency := some "USD" } }
    (by decide) { source := some "CoinGecko" } 0
    { rates_file := .missing, history_file := .missing
    , rates_temp := false, history_temp := false }).1
    [("BTC_USD", 2)] (by decide)

end ValutaTrade
